import Mathlib

/-!
Verification of the real-time document synchronization core of the
collab-docs service: the CRDT persistence pipeline
(`modules/documents/services.py`, `modules/documents/crdt.py`), the
per-document connection registry (`core/websockets.py`), the Redis
Pub/Sub bridge (`core/redis_pubsub.py`) and the WebSocket session
handler (`modules/documents/websocket_router.py`), embedded shallowly
as executable Lean definitions mirroring the Python source.
-/

deriving instance DecidableEq for Except

namespace CollabDocs

/-- A WebSocket handle; the registry only compares handles for identity,
so a numeric id suffices. -/
abbrev Socket := Nat

/-- Python exceptions that the embedded code can raise and that the
session handler catches. -/
inductive PyErr where
  /-- Attribute lookup on an object that lacks the attribute. -/
  | attributeError
  /-- `base64.b64decode` on data that is not valid base64 (binascii.Error / TypeError). -/
  | valueError
  /-- `Y.apply_update` on bytes that are not a well-formed Yjs update. -/
  | updateError
deriving DecidableEq, Repr

/-- Modelled from the spec: the binary Yjs wire format handled by the
external `y_py` library (absent from src/ as a third-party dependency).
Per spec section 3, a `CrdtUpdate` or `SerializedCrdtState` is an opaque
byte string that is commutative, associative and idempotent under
`apply`, and `encodeState` round-trips through `new`; the bytes are
therefore modelled as either a well-formed value denoting a finite set
of CRDT items (a join-semilattice whose join is set union), or a
malformed byte string that `Y.apply_update` rejects. -/
inductive YBytes where
  /-- A well-formed update or state encoding, denoting a set of CRDT items. -/
  | valid (items : Finset Nat)
  /-- Bytes that are not a well-formed Yjs update. -/
  | malformed
deriving DecidableEq

/-- Modelled from the spec: the linearized plaintext that the CRDT
engine derives from a document state (spec section 4.1, `plaintext()`):
a derived, never authoritative function of the item set. The claims only
compare plaintexts of states for equality, so any concrete function of
the set serves; a kernel-computable one is chosen. -/
def contentOf (items : Finset Nat) : String :=
  toString items.val.sum

/-- `CRDTDocumentManager` from `modules/documents/crdt.py`: wraps one
`Y.YDoc`. The wrapped doc is the item set of the spec-modelled Y layer. -/
structure CRDTDocumentManager where
  doc : Finset Nat
deriving DecidableEq

namespace CRDTDocumentManager

/-- `CRDTDocumentManager.__init__(initial_state)`: a fresh `YDoc`, then
`if initial_state: Y.apply_update(self.doc, initial_state)`. `none`
covers both Python `None` and the falsy empty byte string. Applying a
malformed state raises. -/
def init (initial_state : Option YBytes) : Except PyErr CRDTDocumentManager :=
  match initial_state with
  | none => .ok ⟨∅⟩
  | some (.valid s) => .ok ⟨s⟩
  | some .malformed => .error .updateError

/-- `CRDTDocumentManager.apply_update`: `Y.apply_update(self.doc, update)`. -/
def apply_update (m : CRDTDocumentManager) (u : YBytes) :
    Except PyErr CRDTDocumentManager :=
  match u with
  | .valid items => .ok ⟨m.doc ∪ items⟩
  | .malformed => .error .updateError

/-- `CRDTDocumentManager.get_state`: `Y.encode_state_as_update(self.doc)`. -/
def get_state (m : CRDTDocumentManager) : YBytes :=
  .valid m.doc

/-- `CRDTDocumentManager.get_content`: `str(self.text)`. -/
def get_content (m : CRDTDocumentManager) : String :=
  contentOf m.doc

end CRDTDocumentManager

/-- A JSON value as it appears in wire envelopes. The session code only
ever dispatches on string fields, tests truthiness of fields, and
base64-decodes fields, so binary-bearing strings are represented by the
`bin` constructor (a non-empty base64 string encoding the given bytes);
an empty string is represented by `s ""`. -/
inductive JVal where
  | s (v : String)
  | n (v : Int)
  | b (v : Bool)
  | null
  /-- A non-empty string that is valid base64 for the given Yjs bytes. -/
  | bin (u : YBytes)
deriving DecidableEq

/-- A JSON object envelope as produced by `json.loads`: an ordered list
of key/value pairs with distinct keys. -/
abbrev Envelope := List (String × JVal)

/-- Python `message.get(k)`. -/
def getKey (e : Envelope) (k : String) : Option JVal :=
  (e.find? (fun p => p.1 == k)).map (·.2)

/-- Python `message[k] = v`: overwrite in place if the key is present,
else append. -/
def setKey (e : Envelope) (k : String) (v : JVal) : Envelope :=
  match e with
  | [] => [(k, v)]
  | (k', v') :: rest =>
    if k' == k then (k, v) :: rest else (k', v') :: setKey rest k v

/-- Python truthiness of an optional field (`if message.get(k):`). -/
def jTruthy : Option JVal → Bool
  | none => false
  | some (.s v) => !v.isEmpty
  | some (.n v) => v != 0
  | some (.b v) => v
  | some .null => false
  | some (.bin _) => true

/-- `base64.b64decode` on a field value: succeeds exactly on base64
strings carrying bytes; a non-string value raises TypeError, a
non-base64 string raises binascii.Error. -/
def b64decode : JVal → Except PyErr YBytes
  | .bin u => .ok u
  | _ => .error .valueError

/-- `Collaborator` from `modules/documents/models.py`. -/
structure Collaborator where
  user_id : String
  role : String
deriving DecidableEq

/-- `DocumentInDB` from `modules/documents/models.py`, restricted to the
fields the synchronization core reads or writes. Timestamps are ticks of
the server clock. -/
structure DocumentInDB where
  id : String
  content : String
  state : Option YBytes
  owner_id : String
  collaborators : List Collaborator
  updated_at : Nat
deriving DecidableEq

/-- `UserInDB` from `modules/auth/models.py`, restricted to the fields
the synchronization core reads. Note the source model declares no
`avatar_url` and no `color` field. -/
structure UserInDB where
  id : String
  username : String
deriving DecidableEq

/-- The `documents` Mongo collection: the sequential view of the store
used by `apply_crdt_update`. -/
abbrev DB := List DocumentInDB

/-- `bson.ObjectId.is_valid` on a string: exactly the 24-character
hexadecimal strings. -/
def ObjectId.is_valid (oid : String) : Bool :=
  oid.length == 24 &&
    oid.toList.all fun c =>
      c.isDigit || ('a' ≤ c && c ≤ 'f') || ('A' ≤ c && c ≤ 'F')

/-- `db[DOCUMENTS_COLLECTION].find_one({"_id": ObjectId(doc_id)})`. -/
def findOne (db : DB) (doc_id : String) : Option DocumentInDB :=
  db.find? (fun d => d.id == doc_id)

/-- `find_one_and_update` with `$set {state, content, updated_at}` and
`return_document=True` (`services.py` lines 234-244): replaces those
fields on the matching document and returns the updated document. -/
def findOneAndUpdateState (db : DB) (doc_id : String) (st : YBytes)
    (content : String) (now : Nat) : Option DocumentInDB × DB :=
  let db' := db.map fun d =>
    if d.id == doc_id then
      { d with state := some st, content := content, updated_at := now }
    else d
  (findOne db' doc_id, db')

/-- `apply_crdt_update` from `modules/documents/services.py` lines
205-246: validate the id, fetch the document, initialize the CRDT
manager from its stored state, fold in the binary update, and write the
new state and content back. Exceptions raised by the Y layer propagate
to the caller. -/
def apply_crdt_update (db : DB) (doc_id : String) (binary_update : YBytes)
    (now : Nat) : Except PyErr (Option DocumentInDB × DB) :=
  if !(ObjectId.is_valid doc_id) then .ok (none, db)
  else
    match findOne db doc_id with
    | none => .ok (none, db)
    | some doc => do
      let manager ← CRDTDocumentManager.init doc.state
      let manager ← manager.apply_update binary_update
      let new_state := manager.get_state
      let new_content := manager.get_content
      let (updated, db') := findOneAndUpdateState db doc_id new_state new_content now
      .ok (updated, db')

/-- Rendering of `datetime.utcnow().isoformat()` at a given server-clock
tick: an injective rendering of the tick, kept abstract as a string. -/
def isoformat (now : Nat) : String :=
  toString now

/-- `process_sync_message` from `modules/documents/services.py` lines
193-202: enrich the message in place with the authenticated identity and
the server clock. -/
def process_sync_message (user : UserInDB) (now : Nat) (data : Envelope) :
    Envelope :=
  setKey (setKey (setKey data "user_id" (.s user.id))
    "username" (.s user.username)) "timestamp" (.s (isoformat now))

/-- The access test of `get_ws_authenticated_doc`
(`modules/documents/dependencies.py` lines 100-106): the user is the
owner or appears among the collaborators, with any role. -/
def ws_access_ok (user : UserInDB) (doc : DocumentInDB) : Bool :=
  doc.owner_id == user.id ||
    doc.collaborators.any (fun c => c.user_id == user.id)

/-- `ConnectionManager` from `core/websockets.py`: the process-local
registry `active_connections: dict[str, set[WebSocket]]`, embedded as an
insertion-ordered association list (Python dicts preserve insertion
order; the per-document socket sets hold no duplicates). The class
defines exactly the methods below: in particular it defines no
`broadcast_except` method. -/
structure ConnectionManager where
  active_connections : List (String × List Socket)
deriving DecidableEq

namespace ConnectionManager

/-- The fresh registry built by `ConnectionManager.__init__`. -/
def empty : ConnectionManager := ⟨[]⟩

/-- `self.active_connections[document_id]` as an option. -/
def socketsOf (m : ConnectionManager) (document_id : String) :
    Option (List Socket) :=
  (m.active_connections.find? (fun p => p.1 == document_id)).map (·.2)

/-- The registered sockets of a document, empty when the key is absent. -/
def socketsOf0 (m : ConnectionManager) (document_id : String) : List Socket :=
  (m.socketsOf document_id).getD []

/-- Python `document_id in self.active_connections`. -/
def hasKey (m : ConnectionManager) (document_id : String) : Bool :=
  (m.active_connections.find? (fun p => p.1 == document_id)).isSome

/-- Replace the socket list stored under an existing key. -/
def setSockets (m : ConnectionManager) (document_id : String)
    (ws : List Socket) : ConnectionManager :=
  ⟨m.active_connections.map fun p =>
    if p.1 == document_id then (p.1, ws) else p⟩

/-- `ConnectionManager.connect` (after `websocket.accept()`): insert the
key with an empty set when absent, then `add` the socket (a no-op when
already present, as for a Python set). -/
def connect (m : ConnectionManager) (document_id : String) (w : Socket) :
    ConnectionManager :=
  match m.socketsOf document_id with
  | none => ⟨m.active_connections ++ [(document_id, [w])]⟩
  | some ws => if w ∈ ws then m else m.setSockets document_id (ws ++ [w])

/-- `ConnectionManager.disconnect`: `discard` the socket and delete the
key when its set becomes empty; a no-op when the key is absent. -/
def disconnect (m : ConnectionManager) (document_id : String) (w : Socket) :
    ConnectionManager :=
  match m.socketsOf document_id with
  | none => m
  | some ws =>
    let ws' := ws.erase w
    if ws'.isEmpty then
      ⟨m.active_connections.filter (fun p => !(p.1 == document_id))⟩
    else m.setSockets document_id ws'

/-- `ConnectionManager.broadcast`: snapshot the socket set into a list,
serialize the message once (`json.dumps`), and attempt `send_text` on
every socket of the snapshot; a failing send disconnects exactly that
socket and the iteration continues. `sendOk` tells which sockets accept
the send. Returns the final registry and the deliveries made, each
carrying the one serialized message. -/
def broadcast (sendOk : Socket → Bool) (m : ConnectionManager)
    (document_id : String) (message : Envelope) :
    ConnectionManager × List (Socket × Envelope) :=
  match m.socketsOf document_id with
  | none => (m, [])
  | some connections =>
    connections.foldl
      (fun acc c =>
        if sendOk c then (acc.1, acc.2 ++ [(c, message)])
        else (acc.1.disconnect document_id c, acc.2))
      (m, [])

end ConnectionManager

/-- The channel name convention of `core/redis_pubsub.py`:
`f"doc:{document_id}"`. -/
def docChannel (document_id : String) : String :=
  "doc:" ++ document_id

/-- `RedisPubSubManager` from `core/redis_pubsub.py`, observed through
the commands it issues to the Redis substrate. `subscribedChannels` is
the substrate-side set of channels this replica is subscribed to;
`subscribeCmds` and `unsubscribeCmds` log every real SUBSCRIBE and
UNSUBSCRIBE command issued (redis-py sends the command on every call);
`published` logs every PUBLISH. The connection is modelled as already
established (the methods lazily connect on first use). -/
structure RedisPubSubManager where
  subscribedChannels : List String
  subscribeCmds : List String
  unsubscribeCmds : List String
  published : List (String × Envelope)
deriving DecidableEq

namespace RedisPubSubManager

/-- The fresh manager built at import time. -/
def empty : RedisPubSubManager := ⟨[], [], [], []⟩

/-- `RedisPubSubManager.subscribe`: `self.pubsub.subscribe(channel)` —
a real SUBSCRIBE command is issued on every call, with no ref-counting. -/
def subscribe (r : RedisPubSubManager) (document_id : String) :
    RedisPubSubManager :=
  let ch := docChannel document_id
  { r with
    subscribeCmds := r.subscribeCmds ++ [ch]
    subscribedChannels :=
      if ch ∈ r.subscribedChannels then r.subscribedChannels
      else r.subscribedChannels ++ [ch] }

/-- `RedisPubSubManager.unsubscribe`: `self.pubsub.unsubscribe(channel)`. -/
def unsubscribe (r : RedisPubSubManager) (document_id : String) :
    RedisPubSubManager :=
  let ch := docChannel document_id
  { r with
    unsubscribeCmds := r.unsubscribeCmds ++ [ch]
    subscribedChannels := r.subscribedChannels.erase ch }

/-- `RedisPubSubManager.publish`: `self.client.publish(channel, json.dumps(message))`. -/
def publish (r : RedisPubSubManager) (document_id : String)
    (message : Envelope) : RedisPubSubManager :=
  { r with published := r.published ++ [(docChannel document_id, message)] }

end RedisPubSubManager

/-- The process-wide state touched by one WebSocket session step: the
global registry and Redis manager instances and the document store. -/
structure ServerState where
  manager : ConnectionManager
  redis : RedisPubSubManager
  db : DB
deriving DecidableEq

/-- The observable outcome of handling one received envelope in
`sync_document`. `sentToSender` are the frames sent directly back to the
handling socket during the step; `broadcastsToPeers` are the local
fan-out deliveries made during the step; `sessionAlive` is false exactly
when the generic `except Exception` handler ran (the socket was detached
from the registry and closed). -/
structure StepResult where
  state : ServerState
  broadcastsToPeers : List (Socket × Envelope)
  sentToSender : List Envelope
  sessionAlive : Bool
deriving DecidableEq

/-- One iteration of the receive loop of `sync_document`
(`modules/documents/websocket_router.py` lines 53-106), dispatching one
received envelope.

The `awareness` branch (lines 78-89) evaluates
`manager.broadcast_except`, but `ConnectionManager` defines no such
method, so Python raises AttributeError before any send; the exception
escapes the `try` and the `except Exception` handler (lines 103-106)
detaches the socket and closes it.

The `presence` branch (lines 91-97) evaluates `user.avatar_url`, a field
`UserInDB` does not declare, so it likewise raises AttributeError and
ends in the `except Exception` handler before publishing. -/
def handle_message (user : UserInDB) (document_id : String) (ws : Socket)
    (now : Nat) (st : ServerState) (message : Envelope) : StepResult :=
  let errorClose : StepResult :=
    { state := { st with manager := st.manager.disconnect document_id ws }
      broadcastsToPeers := []
      sentToSender := []
      sessionAlive := false }
  let loopAgain : StepResult :=
    { state := st, broadcastsToPeers := [], sentToSender := []
      sessionAlive := true }
  let msg_type := getKey message "type"
  if msg_type == some (.s "update") then
    let update_b64 := getKey message "update"
    let folded : Except PyErr DB :=
      if jTruthy update_b64 then do
        let binary_update ← b64decode (update_b64.getD .null)
        let (_, db') ← apply_crdt_update st.db document_id binary_update now
        pure db'
      else pure st.db
    match folded with
    | .error _ =>
      -- `except Exception ... continue`: drop the update, skip the publish
      loopAgain
    | .ok db' =>
      let processed_data := process_sync_message user now message
      { state :=
          { st with db := db'
                    redis := st.redis.publish document_id processed_data }
        broadcastsToPeers := []
        sentToSender := []
        sessionAlive := true }
  else if msg_type == some (.s "awareness") then
    if jTruthy (getKey message "update") then errorClose else loopAgain
  else if msg_type == some (.s "presence") then errorClose
  else
    -- unknown type: no elif matches, the loop just continues
    loopAgain

/-- The pre-loop part of `sync_document` for an authenticated, accepted
session (lines 36-50): attach the socket to the registry, subscribe the
document channel, and send the initial `sync_state` envelope — but only
when `doc.state` is truthy; a document with no stored state (or an empty
byte string) gets no frame. Returns the new server state and the frames
sent to the client before the receive loop. -/
def sync_document_init (document_id : String) (doc : DocumentInDB)
    (ws : Socket) (st : ServerState) : ServerState × List Envelope :=
  let m := st.manager.connect document_id ws
  let r := st.redis.subscribe document_id
  let sent : List Envelope :=
    match doc.state with
    | some stateBytes =>
      [[("type", .s "sync_state"), ("state", .bin stateBytes),
        ("version", .n 0)]]
    | none => []
  ({ st with manager := m, redis := r }, sent)

/-- An operation on the global registry, for quantifying over arbitrary
operation sequences. A broadcast is identified by the document, the
message and the set of sockets whose `send_text` raises. -/
inductive RegOp where
  | connect (document_id : String) (s : Socket)
  | disconnect (document_id : String) (s : Socket)
  | broadcast (document_id : String) (message : Envelope) (bad : List Socket)
deriving DecidableEq

/-- Apply one registry operation. -/
def applyRegOp (m : ConnectionManager) : RegOp → ConnectionManager
  | .connect d s => m.connect d s
  | .disconnect d s => m.disconnect d s
  | .broadcast d message bad =>
    (ConnectionManager.broadcast (fun s => !(bad.contains s)) m d message).1

/-- Run a sequence of registry operations from the fresh registry. -/
def runRegOps (ops : List RegOp) : ConnectionManager :=
  ops.foldl applyRegOp ConnectionManager.empty

/-- A session lifecycle event as performed by `sync_document`:
`join` is lines 36-37 (`manager.connect` then `redis.subscribe`);
`leaveDisconnect` is the `except WebSocketDisconnect` path, lines
99-102 (`manager.disconnect`, then `redis.unsubscribe` when the key is
gone); `leaveError` is the generic `except Exception` path, lines
103-106 (`manager.disconnect` and a socket close, with no unsubscribe). -/
inductive SessionOp where
  | join (document_id : String) (s : Socket)
  | leaveDisconnect (document_id : String) (s : Socket)
  | leaveError (document_id : String) (s : Socket)
deriving DecidableEq

/-- Apply one session lifecycle event to the registry and Redis manager. -/
def applySessionOp (st : ConnectionManager × RedisPubSubManager) :
    SessionOp → ConnectionManager × RedisPubSubManager
  | .join d s => (st.1.connect d s, st.2.subscribe d)
  | .leaveDisconnect d s =>
    let m' := st.1.disconnect d s
    if m'.hasKey d then (m', st.2) else (m', st.2.unsubscribe d)
  | .leaveError d s => (st.1.disconnect d s, st.2)

/-- Run a sequence of session lifecycle events from the fresh global
instances. -/
def runSessionOps (ops : List SessionOp) :
    ConnectionManager × RedisPubSubManager :=
  ops.foldl applySessionOp (ConnectionManager.empty, RedisPubSubManager.empty)

/-- Whether a lifecycle event is the generic error-path cleanup. -/
def SessionOp.isErrorLeave : SessionOp → Bool
  | .leaveError _ _ => true
  | _ => false

/-- The channels for which a sequence of lifecycle events issues real
SUBSCRIBE commands, in order: one per join. -/
def subsChannelsOf (ops : List SessionOp) : List String :=
  ops.filterMap fun op =>
    match op with
    | .join d _ => some (docChannel d)
    | _ => none

/-- A concrete collaborator user with role viewer on `docD`. -/
def vUser : UserInDB :=
  ⟨"cccccccccccccccccccccccc", "viewer-vera"⟩

/-- A concrete stored document: valid ObjectId, a stored CRDT state, one
viewer collaborator. -/
def docD : DocumentInDB :=
  ⟨"aaaaaaaaaaaaaaaaaaaaaaaa", "x", some (.valid {1, 2}),
   "bbbbbbbbbbbbbbbbbbbbbbbb", [⟨"cccccccccccccccccccccccc", "viewer"⟩], 0⟩

/-- `docD` with no stored CRDT state. -/
def docNoState : DocumentInDB :=
  { docD with state := none }

/-- `docD` after folding in the update `{3}` at tick 3. -/
def docD3 : DocumentInDB :=
  { docD with state := some (.valid {1, 2, 3}),
              content := contentOf {1, 2, 3}, updated_at := 3 }

/-- An `update` envelope whose payload is not a well-formed Yjs update. -/
def msgMalformedUpdate : Envelope :=
  [("type", .s "update"), ("update", .bin .malformed)]

/-- A well-formed `update` envelope carrying the update `{3}`. -/
def msgUpdate3 : Envelope :=
  [("type", .s "update"), ("update", .bin (.valid {3}))]

/-- An `awareness` envelope with a non-empty update field. -/
def msgAwareness : Envelope :=
  [("type", .s "awareness"), ("update", .s "cursor-7")]

/-- An `update` envelope where the client spoofs the wire-schema
attribution fields `userId` and `ts`. -/
def msgSpoof : Envelope :=
  [("type", .s "update"), ("update", .bin (.valid {3})),
   ("userId", .s "spoof"), ("ts", .s "spoof")]

/-- A server state with two sockets joined to `docD`. -/
def stD : ServerState :=
  ⟨⟨[(docD.id, [7, 8])]⟩, .empty, [docD]⟩

/-- A server state with no registered sockets and `docD` stored. -/
def stNoConns : ServerState :=
  ⟨.empty, .empty, [docD]⟩

/-- A server state whose document store is empty (the document was
deleted after the session joined). -/
def stNoDoc : ServerState :=
  ⟨.empty, .empty, []⟩

/-- A concrete registry: three sockets on document dA, one on dB. -/
def mW : ConnectionManager :=
  ⟨[("dA", [1, 2, 3]), ("dB", [4])]⟩

/-- A concrete lifecycle sequence with only disconnect-path detaches. -/
def opsW : List SessionOp :=
  [.join "d1" 1, .leaveDisconnect "d1" 1, .join "d2" 2]

/-! ### Helper lemmas -/

theorem getKey_setKey_self (e : Envelope) (k : String) (v : JVal) :
    getKey (setKey e k v) k = some v := by
  induction e with
  | nil => simp [getKey, setKey]
  | cons p rest ih =>
    obtain ⟨k', v'⟩ := p
    by_cases h : k' = k
    · simp [getKey, setKey, h]
    · have hb : (k' == k) = false := by simp [h]
      simpa [getKey, setKey, hb] using ih

theorem getKey_setKey_ne (e : Envelope) (k k' : String) (v : JVal)
    (h : k ≠ k') : getKey (setKey e k' v) k = getKey e k := by
  induction e with
  | nil => simp [getKey, setKey, h, Ne.symm h]
  | cons p rest ih =>
    obtain ⟨k0, v0⟩ := p
    by_cases h0 : k0 = k'
    · have hb : (k0 == k') = true := by simp [h0]
      have hbk : (k0 == k) = false := by simp [h0, Ne.symm h]
      simp [getKey, setKey, hb, hbk, Ne.symm h]
    · have hb : (k0 == k') = false := by simp [h0]
      by_cases hk : k0 = k
      · simp [getKey, setKey, hb, hk, h]
      · have hbk : (k0 == k) = false := by simp [hk]
        simpa [getKey, setKey, hb, hbk] using ih

theorem findOne_id_eq {db : DB} {i : String} {d : DocumentInDB}
    (h : findOne db i = some d) : d.id = i := by
  have := List.find?_some h
  simpa using this

theorem findOne_map_id (g : DocumentInDB → DocumentInDB)
    (hg : ∀ d, (g d).id = d.id) (db : DB) (i : String) :
    findOne (db.map g) i = (findOne db i).map g := by
  induction db with
  | nil => rfl
  | cons d rest ih =>
    by_cases h : d.id = i
    · have h1 : ((g d).id == i) = true := by simp [hg d, h]
      have h2 : (d.id == i) = true := by simp [h]
      simp [findOne, List.find?, h1, h2]
    · have h1 : ((g d).id == i) = false := by simp [hg d, h]
      have h2 : (d.id == i) = false := by simp [h]
      simpa [findOne, List.find?, h1, h2] using ih

/-- Computation of a successful `apply_crdt_update` on a present
document whose stored state initializes cleanly. -/
theorem apply_crdt_update_eq (db : DB) (i : String) (items : Finset Nat)
    (now : Nat) (doc : DocumentInDB) (s0 : Finset Nat)
    (hv : ObjectId.is_valid i = true)
    (hf : findOne db i = some doc)
    (hinit : CRDTDocumentManager.init doc.state = .ok ⟨s0⟩) :
    apply_crdt_update db i (.valid items) now =
      .ok (some { doc with state := some (.valid (s0 ∪ items)),
                           content := contentOf (s0 ∪ items),
                           updated_at := now },
           db.map fun d =>
             if d.id == i then
               { d with state := some (.valid (s0 ∪ items)),
                        content := contentOf (s0 ∪ items),
                        updated_at := now }
             else d) := by
  have hid : doc.id = i := findOne_id_eq hf
  unfold apply_crdt_update
  rw [hv]
  simp only [Bool.not_true, Bool.false_eq_true, if_false]
  rw [hf]
  simp only [hinit, CRDTDocumentManager.apply_update, bind, Except.bind,
    CRDTDocumentManager.get_state, CRDTDocumentManager.get_content,
    findOneAndUpdateState]
  rw [findOne_map_id _ (by intro d; by_cases h : d.id = i <;> simp [h]) db i, hf]
  simp [hid]

theorem handle_message_update_ok (user : UserInDB) (document_id : String)
    (ws : Socket) (now : Nat) (st : ServerState) (message : Envelope)
    (u : YBytes) (res : Option DocumentInDB) (db' : DB)
    (hty : getKey message "type" = some (.s "update"))
    (hub : getKey message "update" = some (.bin u))
    (hfold : apply_crdt_update st.db document_id u now = .ok (res, db')) :
    handle_message user document_id ws now st message =
      ⟨⟨st.manager,
        st.redis.publish document_id (process_sync_message user now message),
        db'⟩, [], [], true⟩ := by
  unfold handle_message
  rw [hty, hub]
  simp [jTruthy, b64decode, bind, Except.bind, pure, Except.pure, hfold]

theorem handle_message_update_raise (user : UserInDB) (document_id : String)
    (ws : Socket) (now : Nat) (st : ServerState) (message : Envelope)
    (u : YBytes) (e : PyErr)
    (hty : getKey message "type" = some (.s "update"))
    (hub : getKey message "update" = some (.bin u))
    (hfold : apply_crdt_update st.db document_id u now = .error e) :
    handle_message user document_id ws now st message = ⟨st, [], [], true⟩ := by
  unfold handle_message
  rw [hty, hub]
  simp [jTruthy, b64decode, bind, Except.bind, pure, Except.pure, hfold]

/-! ### Claim theorems -/

/-- Claim C1 (code bug, evaluated at the failing input): a joined
session for `docD` with a peer socket receives an awareness envelope
with a non-empty update field. Because `ConnectionManager` defines no
`broadcast_except` method, the handler ends in the generic exception
path: nothing is broadcast to the peer, the sender is detached from the
registry and its socket closed, while stored state and the Redis publish
log are indeed untouched. The claim instead requires the envelope to
reach the peer and the sender to remain joined. -/
theorem awareness_branch_raises_and_closes :
    (let r := handle_message vUser docD.id 7 3 stD msgAwareness
     r.sessionAlive = false ∧
     r.broadcastsToPeers = [] ∧
     r.sentToSender = [] ∧
     r.state.manager.socketsOf0 docD.id = [8] ∧
     r.state.redis.published = [] ∧
     r.state.db = [docD]) := by decide

/-- Claim C2 (code bug, evaluated at the failing input): `vUser` has
access to `docD` only as a collaborator with role viewer, yet the
receive loop applies no write-capability check: the viewer's update is
folded into the stored document state and published cross-replica, and
the session stays alive. The claim instead requires the update to be
dropped with state unchanged. -/
theorem viewer_update_folded_and_published :
    ws_access_ok vUser docD = true ∧
    (docD.owner_id == vUser.id) = false ∧
    docD.collaborators.all (fun c => c.role == "viewer") = true ∧
    (let r := handle_message vUser docD.id 7 3 stD msgUpdate3
     r.sessionAlive = true ∧
     r.state.redis.published.length = 1 ∧
     (findOne r.state.db docD.id).map (fun d => d.state) =
       some (some (.valid {1, 2, 3}))) := by decide

/-- Claim C3 (counterexample): the claim fails in two ways. First, a
fold that raises (malformed update bytes) drops the update and keeps the
session alive, but no `persist_failed` error envelope (nor any frame at
all) is sent to the client. Second, a fold that fails because the
document is missing from the store is followed by a cross-replica
publish of the update, which the claim forbids. -/
theorem persist_failure_counterexample :
    (let r := handle_message vUser docD.id 7 3 stNoConns msgMalformedUpdate
     r.sentToSender = [] ∧ r.state = stNoConns ∧ r.sessionAlive = true) ∧
    (let r2 := handle_message vUser docD.id 7 3 stNoDoc msgUpdate3
     r2.state.redis.published.length = 1 ∧ r2.sentToSender = []) := by decide

/-- Claim C3 (amended): for an incoming update envelope, when the
persistence fold raises (malformed base64, malformed update bytes, or a
raising store operation) the session drops the update — nothing is
published, nothing at all is sent to the client (in particular no
`persist_failed` error envelope, which does not exist in the code), and
the session stays alive; when the fold fails by returning `None`
(lexically invalid or missing document id) the session nevertheless
publishes the enriched update cross-replica, again notifying nobody. -/
theorem persist_failure_behaviour (user : UserInDB) (document_id : String)
    (ws : Socket) (now : Nat) (st : ServerState) (message : Envelope)
    (hty : getKey message "type" = some (.s "update")) :
    (∀ u e, getKey message "update" = some (.bin u) →
       apply_crdt_update st.db document_id u now = .error e →
       handle_message user document_id ws now st message =
         ⟨st, [], [], true⟩) ∧
    (∀ u, getKey message "update" = some (.bin u) →
       apply_crdt_update st.db document_id u now = .ok (none, st.db) →
       handle_message user document_id ws now st message =
         ⟨⟨st.manager,
           st.redis.publish document_id (process_sync_message user now message),
           st.db⟩, [], [], true⟩) ∧
    (∀ v, getKey message "update" = some (.s v) → v.isEmpty = false →
       handle_message user document_id ws now st message =
         ⟨st, [], [], true⟩) := by
  refine ⟨?_, ?_, ?_⟩
  · intro u e hub hfold
    exact handle_message_update_raise user document_id ws now st message u e
      hty hub hfold
  · intro u hub hfold
    exact handle_message_update_ok user document_id ws now st message u none
      st.db hty hub hfold
  · intro v hub hv
    unfold handle_message
    rw [hty, hub]
    simp [jTruthy, b64decode, bind, Except.bind, hv]

/-- Witness for `persist_failure_behaviour` at the malformed-update
input. -/
theorem persist_failure_behaviour_witness :
    getKey msgMalformedUpdate "type" = some (.s "update") ∧
    getKey msgMalformedUpdate "update" = some (.bin .malformed) ∧
    apply_crdt_update stNoConns.db docD.id .malformed 3 =
      .error .updateError ∧
    handle_message vUser docD.id 7 3 stNoConns msgMalformedUpdate =
      ⟨stNoConns, [], [], true⟩ :=
  ⟨by decide, by decide, by decide,
   (persist_failure_behaviour vUser docD.id 7 3 stNoConns msgMalformedUpdate
     (by decide)).1 .malformed .updateError (by decide) (by decide)⟩

/-- Claim C4 (counterexample): for a document with no stored state, the
pre-loop part of `sync_document` sends no frame at all, in particular
not the required single `sync_state` envelope with an empty-document
snapshot. -/
theorem no_sync_state_when_state_absent :
    docNoState.state = none ∧
    (sync_document_init docD.id docNoState 7
      ⟨.empty, .empty, [docNoState]⟩).2 = [] := ⟨rfl, rfl⟩

/-- Claim C4 (amended): for every session that passes authentication and
access checks, the server sends exactly one `sync_state` envelope
(carrying the stored snapshot and version 0) before entering the receive
loop when the document has a stored state, and sends no envelope at all
when the stored state is absent. -/
theorem sync_state_iff_state_present (document_id : String)
    (doc : DocumentInDB) (ws : Socket) (st : ServerState) :
    (∀ b, doc.state = some b →
      (sync_document_init document_id doc ws st).2 =
        [[("type", .s "sync_state"), ("state", .bin b), ("version", .n 0)]]) ∧
    (doc.state = none → (sync_document_init document_id doc ws st).2 = []) := by
  constructor
  · intro b hb; simp [sync_document_init, hb]
  · intro hb; simp [sync_document_init, hb]

/-- Witness for `sync_state_iff_state_present` on `docD`, whose stored
state is present. -/
theorem sync_state_iff_state_present_witness :
    docD.state = some (.valid {1, 2}) ∧
    (sync_document_init docD.id docD 7 stNoConns).2 =
      [[("type", .s "sync_state"), ("state", .bin (.valid {1, 2})),
        ("version", .n 0)]] :=
  ⟨rfl, (sync_state_iff_state_present docD.id docD 7 stNoConns).1 _ rfl⟩

/-- Claim C6 (counterexample): the published envelope does not carry the
wire-schema field names. A client that omits `userId` and `ts` sees them
absent from the published envelope (the server fills `user_id`,
`username` and `timestamp` instead), and a client that spoofs `userId`
and `ts` sees its spoofed values forwarded untouched. -/
theorem attribution_field_names_counterexample :
    (handle_message vUser docD.id 7 3 stNoConns msgUpdate3).state.redis.published
      = [(docChannel docD.id, process_sync_message vUser 3 msgUpdate3)] ∧
    getKey (process_sync_message vUser 3 msgUpdate3) "userId" = none ∧
    getKey (process_sync_message vUser 3 msgUpdate3) "ts" = none ∧
    getKey (process_sync_message vUser 3 msgSpoof) "userId" =
      some (.s "spoof") ∧
    getKey (process_sync_message vUser 3 msgSpoof) "ts" =
      some (.s "spoof") := by decide

/-- Claim C6 (amended): for every accepted update envelope, the envelope
published cross-replica is the client envelope enriched server-side with
the attribution fields `user_id`, `username` and `timestamp` (not the
wire-schema names `userId` and `ts`), filled from the authenticated
identity and the server clock regardless of any client-supplied values
for those three keys. -/
theorem attribution_fields_server_filled (user : UserInDB)
    (document_id : String) (ws : Socket) (now : Nat) (st : ServerState)
    (message : Envelope) (u : YBytes) (res : Option DocumentInDB) (db' : DB)
    (hty : getKey message "type" = some (.s "update"))
    (hub : getKey message "update" = some (.bin u))
    (hfold : apply_crdt_update st.db document_id u now = .ok (res, db')) :
    (handle_message user document_id ws now st message).state.redis.published
      = st.redis.published ++
          [(docChannel document_id, process_sync_message user now message)] ∧
    getKey (process_sync_message user now message) "user_id" =
      some (.s user.id) ∧
    getKey (process_sync_message user now message) "username" =
      some (.s user.username) ∧
    getKey (process_sync_message user now message) "timestamp" =
      some (.s (isoformat now)) := by
  refine ⟨?_, ?_, ?_, ?_⟩
  · rw [handle_message_update_ok user document_id ws now st message u res db'
      hty hub hfold]
    rfl
  · unfold process_sync_message
    rw [getKey_setKey_ne _ _ _ _ (by decide),
      getKey_setKey_ne _ _ _ _ (by decide), getKey_setKey_self]
  · unfold process_sync_message
    rw [getKey_setKey_ne _ _ _ _ (by decide), getKey_setKey_self]
  · unfold process_sync_message
    rw [getKey_setKey_self]

/-- Witness for `attribution_fields_server_filled` at the spoofing
client input. -/
theorem attribution_fields_server_filled_witness :
    getKey msgSpoof "type" = some (.s "update") ∧
    getKey msgSpoof "update" = some (.bin (.valid {3})) ∧
    apply_crdt_update stNoConns.db docD.id (.valid {3}) 3 =
      .ok (some docD3, [docD3]) ∧
    ((handle_message vUser docD.id 7 3 stNoConns msgSpoof).state.redis.published
      = stNoConns.redis.published ++
          [(docChannel docD.id, process_sync_message vUser 3 msgSpoof)] ∧
     getKey (process_sync_message vUser 3 msgSpoof) "user_id" =
       some (.s vUser.id) ∧
     getKey (process_sync_message vUser 3 msgSpoof) "username" =
       some (.s vUser.username) ∧
     getKey (process_sync_message vUser 3 msgSpoof) "timestamp" =
       some (.s (isoformat 3))) :=
  ⟨by decide, by decide, by decide,
   attribution_fields_server_filled vUser docD.id 7 3 stNoConns msgSpoof
     (.valid {3}) (some docD3) [docD3] (by decide) (by decide) (by decide)⟩

/-- Claim C10: for a lexically invalid ObjectId, or a valid one with no
matching stored document, `apply_crdt_update` returns `None` and leaves
the store untouched. -/
theorem apply_crdt_update_no_write_on_missing (db : DB) (doc_id : String)
    (u : YBytes) (now : Nat)
    (h : ObjectId.is_valid doc_id = false ∨ findOne db doc_id = none) :
    apply_crdt_update db doc_id u now = .ok (none, db) := by
  unfold apply_crdt_update
  rcases h with h | h
  · simp [h]
  · cases hv : ObjectId.is_valid doc_id <;> simp [hv, h]

/-- Claim C8: two successive successful folds of the same update bytes
into a stored document yield the same stored state and the same
plaintext content as folding once (only `updated_at` moves): the second
fold initializes from the state written by the first, and re-applying
the same item set is idempotent. -/
theorem fold_idempotent (db : DB) (i : String) (items : Finset Nat)
    (n1 n2 : Nat) (doc : DocumentInDB) (s0 : Finset Nat)
    (hv : ObjectId.is_valid i = true)
    (hf : findOne db i = some doc)
    (hinit : CRDTDocumentManager.init doc.state = .ok ⟨s0⟩) :
    ∃ d1 db1 d2 db2,
      apply_crdt_update db i (.valid items) n1 = .ok (some d1, db1) ∧
      apply_crdt_update db1 i (.valid items) n2 = .ok (some d2, db2) ∧
      d2.state = d1.state ∧ d2.content = d1.content ∧
      findOne db1 i = some d1 ∧ findOne db2 i = some d2 := by
  have hid : doc.id = i := findOne_id_eq hf
  have hu : (s0 ∪ items) ∪ items = s0 ∪ items := by
    rw [Finset.union_assoc, Finset.union_self]
  have h1 := apply_crdt_update_eq db i items n1 doc s0 hv hf hinit
  have hfind1 :
      findOne (db.map fun d =>
        if d.id == i then
          { d with state := some (.valid (s0 ∪ items)),
                   content := contentOf (s0 ∪ items), updated_at := n1 }
        else d) i =
      some { doc with state := some (.valid (s0 ∪ items)),
                      content := contentOf (s0 ∪ items), updated_at := n1 } := by
    rw [findOne_map_id _ (by intro d; by_cases h : d.id = i <;> simp [h]) db i, hf]
    simp [hid]
  have hinit1 :
      CRDTDocumentManager.init
        (some (YBytes.valid (s0 ∪ items)) : Option YBytes) = .ok ⟨s0 ∪ items⟩ := rfl
  have h2 := apply_crdt_update_eq _ i items n2
    { doc with state := some (.valid (s0 ∪ items)),
               content := contentOf (s0 ∪ items), updated_at := n1 }
    (s0 ∪ items) hv hfind1 hinit1
  rw [hu] at h2
  refine ⟨_, _, _, _, h1, h2, rfl, rfl, hfind1, ?_⟩
  rw [findOne_map_id _ (by intro d; by_cases h : d.id = i <;> simp [h]) _ i, hfind1]
  simp [hid]

/-- Witness for `fold_idempotent` on `docD` with the update `{3}`. -/
theorem fold_idempotent_witness :
    ObjectId.is_valid docD.id = true ∧
    findOne [docD] docD.id = some docD ∧
    CRDTDocumentManager.init docD.state = .ok ⟨{1, 2}⟩ ∧
    (∃ d1 db1 d2 db2,
      apply_crdt_update [docD] docD.id (.valid {3}) 1 = .ok (some d1, db1) ∧
      apply_crdt_update db1 docD.id (.valid {3}) 2 = .ok (some d2, db2) ∧
      d2.state = d1.state ∧ d2.content = d1.content ∧
      findOne db1 docD.id = some d1 ∧ findOne db2 docD.id = some d2) :=
  ⟨by decide, by decide, rfl,
   fold_idempotent [docD] docD.id {3} 1 2 docD {1, 2} (by decide) (by decide) rfl⟩

/-- Witness for `apply_crdt_update_no_write_on_missing` at a lexically
invalid id. -/
theorem apply_crdt_update_no_write_on_missing_witness :
    (ObjectId.is_valid "zzz" = false ∨ findOne [docD] "zzz" = none) ∧
    apply_crdt_update [docD] "zzz" (.valid {3}) 0 = .ok (none, [docD]) :=
  ⟨Or.inl (by decide),
   apply_crdt_update_no_write_on_missing [docD] "zzz" (.valid {3}) 0
     (Or.inl (by decide))⟩

theorem find?_map_keys (g : String × List Socket → String × List Socket)
    (hg : ∀ p, (g p).1 = p.1) (l : List (String × List Socket)) (k : String) :
    (l.map g).find? (fun p => p.1 == k) = (l.find? (fun p => p.1 == k)).map g := by
  induction l with
  | nil => rfl
  | cons p rest ih =>
    by_cases h : p.1 = k
    · have h1 : ((g p).1 == k) = true := by simp [hg p, h]
      have h2 : (p.1 == k) = true := by simp [h]
      simp [List.find?, h1, h2]
    · have h1 : ((g p).1 == k) = false := by simp [hg p, h]
      have h2 : (p.1 == k) = false := by simp [h]
      simpa [List.find?, h1, h2] using ih

theorem find?_filter_out (l : List (String × List Socket)) (d : String) :
    (l.filter fun p => !(p.1 == d)).find? (fun p => p.1 == d) = none := by
  rw [List.find?_eq_none]
  intro p hp
  have := List.of_mem_filter hp
  simpa using this

theorem find?_filter_ne (l : List (String × List Socket)) (d d' : String)
    (h : d' ≠ d) :
    (l.filter fun p => !(p.1 == d)).find? (fun p => p.1 == d') =
      l.find? (fun p => p.1 == d') := by
  induction l with
  | nil => rfl
  | cons p rest ih =>
    by_cases hd : p.1 = d
    · have h1 : (p.1 == d) = true := by simp [hd]
      have h2 : (p.1 == d') = false := by simp [hd, Ne.symm h]
      simpa [List.filter, h1, List.find?, h2] using ih
    · have h1 : (p.1 == d) = false := by simp [hd]
      by_cases hd' : p.1 = d'
      · have h2 : (p.1 == d') = true := by simp [hd']
        simp [List.filter, h1, List.find?, h2]
      · have h2 : (p.1 == d') = false := by simp [hd']
        simpa [List.filter, h1, List.find?, h2] using ih

theorem socketsOf_setSockets_self (m : ConnectionManager) (d : String)
    (ws : List Socket) (q : List Socket) (hq : m.socketsOf d = some q) :
    (m.setSockets d ws).socketsOf d = some ws := by
  unfold ConnectionManager.socketsOf ConnectionManager.setSockets at *
  rw [find?_map_keys _ (by intro p; by_cases h : p.1 = d <;> simp [h])]
  obtain ⟨p, hp, hpe⟩ : ∃ p, m.active_connections.find? (fun p => p.1 == d) = some p ∧ p.2 = q := by
    cases hf : m.active_connections.find? (fun p => p.1 == d) with
    | none => rw [hf] at hq; simp at hq
    | some p => rw [hf] at hq; simp at hq; exact ⟨p, rfl, hq⟩
  have hpd : p.1 = d := by
    have := List.find?_some hp; simpa using this
  simp [hp, hpd]

theorem socketsOf_setSockets_ne (m : ConnectionManager) (d d' : String)
    (ws : List Socket) (h : d' ≠ d) :
    (m.setSockets d ws).socketsOf d' = m.socketsOf d' := by
  unfold ConnectionManager.socketsOf ConnectionManager.setSockets
  rw [find?_map_keys _ (by intro p; by_cases hh : p.1 = d <;> simp [hh])]
  cases hf : m.active_connections.find? (fun p => p.1 == d') with
  | none => simp
  | some p =>
    have hpd : p.1 = d' := by
      have := List.find?_some hf; simpa using this
    simp [hpd, h]

theorem socketsOf0_disconnect_self (m : ConnectionManager) (d : String)
    (c : Socket) :
    (m.disconnect d c).socketsOf0 d = (m.socketsOf0 d).erase c := by
  unfold ConnectionManager.disconnect
  cases hso : m.socketsOf d with
  | none => simp [ConnectionManager.socketsOf0, hso]
  | some ws =>
    by_cases he : (ws.erase c).isEmpty
    · have h1 : (⟨m.active_connections.filter fun p => !(p.1 == d)⟩ :
          ConnectionManager).socketsOf d = none := by
        unfold ConnectionManager.socketsOf
        rw [find?_filter_out]
        rfl
      have h2 : ws.erase c = [] := by simpa using he
      simp [ConnectionManager.socketsOf0, hso, he, h1, h2]
    · have h1 := socketsOf_setSockets_self m d (ws.erase c) ws hso
      simp [ConnectionManager.socketsOf0, hso, he, h1]

theorem socketsOf_disconnect_ne (m : ConnectionManager) (d : String)
    (c : Socket) (d' : String) (h : d' ≠ d) :
    (m.disconnect d c).socketsOf d' = m.socketsOf d' := by
  unfold ConnectionManager.disconnect
  cases hso : m.socketsOf d with
  | none => rfl
  | some ws =>
    by_cases he : (ws.erase c).isEmpty
    · simp only [he, if_true]
      unfold ConnectionManager.socketsOf
      rw [find?_filter_ne _ _ _ h]
    · simp [he, socketsOf_setSockets_ne m d d' _ h]

theorem socketsOf_connect_self (m : ConnectionManager) (d : String)
    (w : Socket) :
    (m.connect d w).socketsOf d = some (match m.socketsOf d with
      | none => [w]
      | some ws => if w ∈ ws then ws else ws ++ [w]) := by
  unfold ConnectionManager.connect
  cases hso : m.socketsOf d with
  | none =>
    have hf : m.active_connections.find? (fun p => p.1 == d) = none := by
      cases hff : m.active_connections.find? (fun p => p.1 == d) with
      | none => rfl
      | some p =>
        unfold ConnectionManager.socketsOf at hso
        rw [hff] at hso; simp at hso
    unfold ConnectionManager.socketsOf
    simp [List.find?_append, hf, List.find?]
  | some ws =>
    by_cases hw : w ∈ ws
    · simp [hw, hso]
    · simp [hw, socketsOf_setSockets_self m d (ws ++ [w]) ws hso]

theorem socketsOf_connect_ne (m : ConnectionManager) (d : String)
    (w : Socket) (d' : String) (h : d' ≠ d) :
    (m.connect d w).socketsOf d' = m.socketsOf d' := by
  unfold ConnectionManager.connect
  cases hso : m.socketsOf d with
  | none =>
    unfold ConnectionManager.socketsOf
    rw [List.find?_append]
    have hb : (d == d') = false := by simp [Ne.symm h]
    have : List.find? (fun p => p.1 == d') [(d, [w])] = none := by
      simp [List.find?, hb]
    simp [this]
  | some ws =>
    by_cases hw : w ∈ ws
    · simp [hw]
    · simp [hw, socketsOf_setSockets_ne m d d' _ h]

theorem broadcast_foldl_split (sendOk : Socket → Bool) (d : String)
    (message : Envelope) (conns : List Socket) :
    ∀ (m : ConnectionManager) (acc : List (Socket × Envelope)),
    conns.foldl (fun acc' c =>
      if sendOk c then (acc'.1, acc'.2 ++ [(c, message)])
      else (acc'.1.disconnect d c, acc'.2)) (m, acc) =
    (conns.foldl (fun st c => if sendOk c then st else st.disconnect d c) m,
     acc ++ (conns.filter sendOk).map (fun c => (c, message))) := by
  induction conns with
  | nil => intro m acc; simp
  | cons c rest ih =>
    intro m acc
    by_cases h : sendOk c <;> simp [h, ih]

theorem broadcast_eq (sendOk : Socket → Bool) (m : ConnectionManager)
    (d : String) (message : Envelope) (conns : List Socket)
    (hso : m.socketsOf d = some conns) :
    ConnectionManager.broadcast sendOk m d message =
      (conns.foldl (fun st c => if sendOk c then st else st.disconnect d c) m,
       (conns.filter sendOk).map (fun c => (c, message))) := by
  unfold ConnectionManager.broadcast
  rw [hso]
  simpa using broadcast_foldl_split sendOk d message conns m []

theorem socketsOf0_foldl_disconnect (sendOk : Socket → Bool) (d : String)
    (toProcess : List Socket) :
    ∀ (m : ConnectionManager),
    (toProcess.foldl (fun st c => if sendOk c then st else st.disconnect d c)
      m).socketsOf0 d =
    toProcess.foldl (fun cur c => if sendOk c then cur else cur.erase c)
      (m.socketsOf0 d) := by
  induction toProcess with
  | nil => intro m; rfl
  | cons c rest ih =>
    intro m
    by_cases h : sendOk c
    · simp [h, ih]
    · simp [h, ih, socketsOf0_disconnect_self]

theorem socketsOf_foldl_disconnect_ne (sendOk : Socket → Bool) (d d' : String)
    (h : d' ≠ d) (toProcess : List Socket) :
    ∀ (m : ConnectionManager),
    ((toProcess.foldl (fun st c => if sendOk c then st else st.disconnect d c)
      m)).socketsOf d' = m.socketsOf d' := by
  induction toProcess with
  | nil => intro m; rfl
  | cons c rest ih =>
    intro m
    by_cases hc : sendOk c
    · simp [hc, ih]
    · simp [hc, ih, socketsOf_disconnect_ne _ _ _ _ h]

theorem foldl_erase_filter (sendOk : Socket → Bool) (toProcess : List Socket) :
    ∀ (cur : List Socket), cur.Nodup →
    toProcess.foldl (fun acc c => if sendOk c then acc else acc.erase c) cur =
    cur.filter (fun c => sendOk c || !(toProcess.contains c)) := by
  induction toProcess with
  | nil =>
    intro cur _
    simp
  | cons t rest ih =>
    intro cur hnd
    by_cases h : sendOk t
    · simp only [List.foldl_cons, h, if_true]
      rw [ih cur hnd]
      apply List.filter_congr
      intro c hc
      by_cases hst : sendOk c
      · simp [hst]
      · have hct : c ≠ t := by
          intro hh; subst hh; rw [h] at hst; exact hst rfl
        simp [hst, hct]
    · have hb : sendOk t = false := by simpa using h
      simp only [List.foldl_cons, hb, Bool.false_eq_true, if_false]
      rw [ih (cur.erase t) (hnd.erase t)]
      rw [List.Nodup.erase_eq_filter hnd t]
      rw [List.filter_filter]
      apply List.filter_congr
      intro c hc
      by_cases hct : c = t
      · subst hct
        simp [hb]
      · simp [hct, hb]

theorem socketsOf_mem_entry (m : ConnectionManager) (d : String)
    (ws : List Socket) (h : m.socketsOf d = some ws) :
    ∃ p ∈ m.active_connections, p.1 = d ∧ p.2 = ws := by
  unfold ConnectionManager.socketsOf at h
  cases hf : m.active_connections.find? (fun p => p.1 == d) with
  | none => rw [hf] at h; simp at h
  | some p =>
    rw [hf] at h
    simp at h
    have hmem := List.mem_of_find?_eq_some hf
    have hpd : p.1 = d := by
      have := List.find?_some hf; simpa using this
    exact ⟨p, hmem, hpd, h⟩


theorem count_pair_map (message : Envelope) (c : Socket) :
    ∀ (l : List Socket),
      (l.map (fun x => (x, message))).count (c, message) = l.count c := by
  intro l
  induction l with
  | nil => rfl
  | cons x t ih =>
    simp only [List.map_cons, List.count_cons, ih]
    by_cases h : c = x
    · simp [h]
    · simp [h]

/-- Claim C7: for any registry (with set-like, duplicate-free socket
sets) and any broadcast, every socket of the target document whose send
succeeds receives the serialized envelope exactly once and stays
registered; a socket whose send raises receives nothing and is detached
— and only that socket: peers of the same document keep their delivery
and registration, and the socket sets of every other document are left
exactly as they were. -/
theorem broadcast_fanout_isolation (m : ConnectionManager) (d : String)
    (message : Envelope) (sendOk : Socket → Bool)
    (hnd : ∀ p ∈ m.active_connections, p.2.Nodup) :
    (∀ c ∈ m.socketsOf0 d, sendOk c = true →
        (ConnectionManager.broadcast sendOk m d message).2.count (c, message) = 1 ∧
        c ∈ (ConnectionManager.broadcast sendOk m d message).1.socketsOf0 d) ∧
    (∀ c ∈ m.socketsOf0 d, sendOk c = false →
        (ConnectionManager.broadcast sendOk m d message).2.count (c, message) = 0 ∧
        c ∉ (ConnectionManager.broadcast sendOk m d message).1.socketsOf0 d) ∧
    (∀ d', d' ≠ d →
        (ConnectionManager.broadcast sendOk m d message).1.socketsOf d' =
          m.socketsOf d') := by
  cases hso : m.socketsOf d with
  | none =>
    have h0 : m.socketsOf0 d = [] := by simp [ConnectionManager.socketsOf0, hso]
    have hb : ConnectionManager.broadcast sendOk m d message = (m, []) := by
      unfold ConnectionManager.broadcast; rw [hso]
    rw [hb, h0]
    refine ⟨by simp, by simp, by intro d' _; rfl⟩
  | some conns =>
    obtain ⟨p, hpm, hpd, hpw⟩ := socketsOf_mem_entry m d conns hso
    have hcnd : conns.Nodup := hpw ▸ hnd p hpm
    have h0 : m.socketsOf0 d = conns := by simp [ConnectionManager.socketsOf0, hso]
    rw [broadcast_eq sendOk m d message conns hso]
    dsimp only
    have hstate : (conns.foldl
        (fun st c => if sendOk c then st else st.disconnect d c) m).socketsOf0 d =
        conns.filter (fun c => sendOk c || !(conns.contains c)) := by
      rw [socketsOf0_foldl_disconnect, h0, foldl_erase_filter sendOk conns conns hcnd]
    refine ⟨?_, ?_, ?_⟩
    · intro c hc hok
      rw [h0] at hc
      constructor
      · rw [count_pair_map]
        exact List.count_eq_one_of_mem (hcnd.filter _) (List.mem_filter.mpr ⟨hc, hok⟩)
      · rw [hstate]
        exact List.mem_filter.mpr ⟨hc, by simp [hok]⟩
    · intro c hc hbad
      rw [h0] at hc
      constructor
      · rw [count_pair_map]
        rw [List.count_eq_zero]
        intro hmem
        have := (List.mem_filter.mp hmem).2
        rw [hbad] at this
        simp at this
      · rw [hstate]
        intro hmem
        have h2 := (List.mem_filter.mp hmem).2
        rw [hbad] at h2
        simp at h2
        exact h2 hc
    · intro d' hd'
      exact socketsOf_foldl_disconnect_ne sendOk d d' hd' conns m

theorem nonempty_connect (m : ConnectionManager) (d : String) (w : Socket)
    (h : ∀ p ∈ m.active_connections, p.2 ≠ []) :
    ∀ p ∈ (m.connect d w).active_connections, p.2 ≠ [] := by
  unfold ConnectionManager.connect
  cases hso : m.socketsOf d with
  | none =>
    intro p hp
    rcases List.mem_append.mp hp with hp | hp
    · exact h p hp
    · simp at hp; rw [hp]; simp
  | some ws =>
    by_cases hw : w ∈ ws
    · simp only [hw, if_true]
      exact h
    · simp only [hw, if_false]
      intro p hp
      unfold ConnectionManager.setSockets at hp
      rcases List.mem_map.mp hp with ⟨q, hq, rfl⟩
      by_cases hqd : q.1 = d
      · simp [hqd]
      · simp only [hqd, beq_iff_eq, if_false]
        exact h q hq

theorem nonempty_disconnect (m : ConnectionManager) (d : String) (c : Socket)
    (h : ∀ p ∈ m.active_connections, p.2 ≠ []) :
    ∀ p ∈ (m.disconnect d c).active_connections, p.2 ≠ [] := by
  unfold ConnectionManager.disconnect
  cases hso : m.socketsOf d with
  | none => exact h
  | some ws =>
    by_cases he : (ws.erase c).isEmpty
    · simp only [he, if_true]
      intro p hp
      exact h p (List.mem_of_mem_filter hp)
    · simp only [he, if_false]
      have hne : ws.erase c ≠ [] := by simpa using he
      intro p hp
      unfold ConnectionManager.setSockets at hp
      rcases List.mem_map.mp hp with ⟨q, hq, rfl⟩
      by_cases hqd : q.1 = d
      · simp [hqd, hne]
      · simp only [hqd, beq_iff_eq, if_false]
        exact h q hq

theorem nonempty_foldl_disconnect (sendOk : Socket → Bool) (d : String)
    (toProcess : List Socket) :
    ∀ (m : ConnectionManager), (∀ p ∈ m.active_connections, p.2 ≠ []) →
    ∀ p ∈ (toProcess.foldl
      (fun st c => if sendOk c then st else st.disconnect d c)
      m).active_connections, p.2 ≠ [] := by
  induction toProcess with
  | nil => intro m h; exact h
  | cons c rest ih =>
    intro m h
    by_cases hc : sendOk c
    · simp only [List.foldl_cons, hc, if_true]
      exact ih m h
    · simp only [List.foldl_cons, hc, if_false]
      exact ih _ (nonempty_disconnect m d c h)

theorem nonempty_broadcast (sendOk : Socket → Bool) (m : ConnectionManager)
    (d : String) (message : Envelope)
    (h : ∀ p ∈ m.active_connections, p.2 ≠ []) :
    ∀ p ∈ (ConnectionManager.broadcast sendOk m d
      message).1.active_connections, p.2 ≠ [] := by
  cases hso : m.socketsOf d with
  | none =>
    have hb : ConnectionManager.broadcast sendOk m d message = (m, []) := by
      unfold ConnectionManager.broadcast; rw [hso]
    rw [hb]; exact h
  | some conns =>
    rw [broadcast_eq sendOk m d message conns hso]
    exact nonempty_foldl_disconnect sendOk d conns m h

theorem nonempty_runRegOps_aux (ops : List RegOp) :
    ∀ (m : ConnectionManager), (∀ p ∈ m.active_connections, p.2 ≠ []) →
    ∀ p ∈ (ops.foldl applyRegOp m).active_connections, p.2 ≠ [] := by
  induction ops with
  | nil => intro m h; exact h
  | cons op rest ih =>
    intro m h
    cases op with
    | connect d s => exact ih _ (nonempty_connect m d s h)
    | disconnect d s => exact ih _ (nonempty_disconnect m d s h)
    | broadcast d message bad =>
      exact ih _ (nonempty_broadcast _ m d message h)

/-- Claim C9: after any sequence of connect, disconnect and broadcast
operations (broadcasts may detach sockets whose sends fail) starting
from the fresh registry, a key exists in `active_connections` for a
docId exactly when at least one socket for that docId is registered. -/
theorem registry_key_iff_nonempty (ops : List RegOp) (d : String) :
    (runRegOps ops).hasKey d = true ↔ (runRegOps ops).socketsOf0 d ≠ [] := by
  have hinv := nonempty_runRegOps_aux ops ConnectionManager.empty
    (by intro p hp; simp [ConnectionManager.empty] at hp)
  unfold runRegOps at hinv ⊢
  unfold ConnectionManager.hasKey ConnectionManager.socketsOf0
    ConnectionManager.socketsOf
  cases hf : (List.foldl applyRegOp ConnectionManager.empty
      ops).active_connections.find? (fun p => p.1 == d) with
  | none => simp
  | some q =>
    have hq := List.mem_of_find?_eq_some hf
    simp [hinv q hq]

theorem docChannel_inj {a b : String} (h : docChannel a = docChannel b) :
    a = b := by
  unfold docChannel at h
  have hd := congrArg String.data h
  rw [String.data_append, String.data_append] at hd
  have := List.append_cancel_left hd
  exact String.ext this

theorem socketsOf_nonempty (m : ConnectionManager) (d : String)
    (ws : List Socket) (hinv : ∀ p ∈ m.active_connections, p.2 ≠ [])
    (hso : m.socketsOf d = some ws) : ws ≠ [] := by
  obtain ⟨p, hpm, _, hpw⟩ := socketsOf_mem_entry m d ws hso
  exact hpw ▸ hinv p hpm

theorem hasKey_false_sockets (m : ConnectionManager) (d : String)
    (h : m.hasKey d = false) : m.socketsOf0 d = [] := by
  unfold ConnectionManager.hasKey at h
  unfold ConnectionManager.socketsOf0 ConnectionManager.socketsOf
  cases hf : m.active_connections.find? (fun p => p.1 == d) with
  | none => simp
  | some q => rw [hf] at h; simp at h

theorem hasKey_true_sockets (m : ConnectionManager) (d : String)
    (hinv : ∀ p ∈ m.active_connections, p.2 ≠ [])
    (h : m.hasKey d = true) : m.socketsOf0 d ≠ [] := by
  unfold ConnectionManager.hasKey at h
  cases hf : m.active_connections.find? (fun p => p.1 == d) with
  | none => rw [hf] at h; simp at h
  | some q =>
    have hq := List.mem_of_find?_eq_some hf
    unfold ConnectionManager.socketsOf0 ConnectionManager.socketsOf
    rw [hf]
    simpa using hinv q hq

theorem mem_subscribe_channels (r : RedisPubSubManager) (d : String)
    (x : String) :
    x ∈ (r.subscribe d).subscribedChannels ↔
      x ∈ r.subscribedChannels ∨ x = docChannel d := by
  unfold RedisPubSubManager.subscribe
  by_cases hm : docChannel d ∈ r.subscribedChannels
  · simp only [hm, if_true]
    exact ⟨Or.inl, fun h => h.elim id (fun he => he ▸ hm)⟩
  · simp [hm]

theorem nodup_subscribe_channels (r : RedisPubSubManager) (d : String)
    (h : r.subscribedChannels.Nodup) :
    (r.subscribe d).subscribedChannels.Nodup := by
  unfold RedisPubSubManager.subscribe
  by_cases hm : docChannel d ∈ r.subscribedChannels
  · simpa [hm] using h
  · simp [hm, List.nodup_append, h]

theorem sessionOps_inv (ops : List SessionOp) :
    ∀ (m : ConnectionManager) (r : RedisPubSubManager),
    (∀ op ∈ ops, op.isErrorLeave = false) →
    (∀ d, docChannel d ∈ r.subscribedChannels ↔ m.socketsOf0 d ≠ []) →
    r.subscribedChannels.Nodup →
    (∀ p ∈ m.active_connections, p.2 ≠ []) →
    ((∀ d, docChannel d ∈
        (ops.foldl applySessionOp (m, r)).2.subscribedChannels ↔
        (ops.foldl applySessionOp (m, r)).1.socketsOf0 d ≠ []) ∧
     (ops.foldl applySessionOp (m, r)).2.subscribedChannels.Nodup ∧
     (∀ p ∈ (ops.foldl applySessionOp (m, r)).1.active_connections,
        p.2 ≠ [])) := by
  induction ops with
  | nil => intro m r _ h1 h2 h3; exact ⟨h1, h2, h3⟩
  | cons op rest ih =>
    intro m r hops h1 h2 h3
    have hrest : ∀ o ∈ rest, o.isErrorLeave = false :=
      fun o ho => hops o (List.mem_cons_of_mem op ho)
    cases op with
    | join d s =>
      simp only [List.foldl_cons, applySessionOp]
      apply ih _ _ hrest
      · intro d0
        by_cases hd : d0 = d
        · subst hd
          have hl : docChannel d0 ∈ (r.subscribe d0).subscribedChannels :=
            (mem_subscribe_channels r d0 _).mpr (Or.inr rfl)
          have hr : (m.connect d0 s).socketsOf0 d0 ≠ [] := by
            unfold ConnectionManager.socketsOf0
            rw [socketsOf_connect_self]
            cases hso : m.socketsOf d0 with
            | none => simp
            | some ws =>
              by_cases hw : s ∈ ws
              · simpa [hw] using List.ne_nil_of_mem hw
              · simp [hw]
          exact iff_of_true hl hr
        · have hcc : docChannel d0 ≠ docChannel d :=
            fun hc => hd (docChannel_inj hc)
          rw [mem_subscribe_channels]
          have hso0 : (m.connect d s).socketsOf0 d0 = m.socketsOf0 d0 := by
            unfold ConnectionManager.socketsOf0
            rw [socketsOf_connect_ne _ _ _ _ hd]
          rw [hso0]
          simp only [hcc, or_false]
          exact h1 d0
      · exact nodup_subscribe_channels r d h2
      · exact nonempty_connect m d s h3
    | leaveDisconnect d s =>
      simp only [List.foldl_cons, applySessionOp]
      have h3' := nonempty_disconnect m d s h3
      by_cases hk : (m.disconnect d s).hasKey d = true
      · simp only [hk, if_true]
        apply ih _ _ hrest
        · intro d0
          by_cases hd : d0 = d
          · subst hd
            have hne' : (m.disconnect d0 s).socketsOf0 d0 ≠ [] :=
              hasKey_true_sockets _ _ h3' hk
            have horig : m.socketsOf0 d0 ≠ [] := by
              intro h0
              rw [socketsOf0_disconnect_self, h0] at hne'
              simp at hne'
            exact iff_of_true ((h1 d0).mpr horig) hne'
          · have hso0 : (m.disconnect d s).socketsOf0 d0 = m.socketsOf0 d0 := by
              unfold ConnectionManager.socketsOf0
              rw [socketsOf_disconnect_ne _ _ _ _ hd]
            rw [hso0]
            exact h1 d0
        · exact h2
        · exact h3'
      · have hkf : (m.disconnect d s).hasKey d = false := by
          simpa using hk
        simp only [hk, if_false]
        apply ih _ _ hrest
        · intro d0
          by_cases hd : d0 = d
          · subst hd
            have hl : docChannel d0 ∉
                (r.unsubscribe d0).subscribedChannels := by
              unfold RedisPubSubManager.unsubscribe
              intro hmem
              exact ((List.Nodup.mem_erase_iff h2).mp hmem).1 rfl
            have hr : ¬((m.disconnect d0 s).socketsOf0 d0 ≠ []) := by
              simp [hasKey_false_sockets _ _ hkf]
            exact iff_of_false hl hr
          · have hcc : docChannel d0 ≠ docChannel d :=
              fun hc => hd (docChannel_inj hc)
            have hso0 : (m.disconnect d s).socketsOf0 d0 = m.socketsOf0 d0 := by
              unfold ConnectionManager.socketsOf0
              rw [socketsOf_disconnect_ne _ _ _ _ hd]
            unfold RedisPubSubManager.unsubscribe
            rw [hso0]
            simp only [List.Nodup.mem_erase_iff h2, hcc, true_and, ne_eq,
              not_false_iff]
            exact h1 d0
        · exact List.Nodup.erase _ h2
        · exact h3'
    | leaveError d s =>
      have := hops _ (List.mem_cons_self _ _)
      simp [SessionOp.isErrorLeave] at this

theorem subscribeCmds_foldl (ops : List SessionOp) :
    ∀ (m : ConnectionManager) (r : RedisPubSubManager),
    (ops.foldl applySessionOp (m, r)).2.subscribeCmds =
      r.subscribeCmds ++ subsChannelsOf ops := by
  induction ops with
  | nil => intro m r; simp [subsChannelsOf]
  | cons op rest ih =>
    intro m r
    cases op with
    | join d s =>
      simp [List.foldl_cons, applySessionOp, ih,
        RedisPubSubManager.subscribe, subsChannelsOf]
    | leaveDisconnect d s =>
      by_cases hk : (m.disconnect d s).hasKey d = true
      · simp [List.foldl_cons, applySessionOp, hk, ih, subsChannelsOf]
      · simp [List.foldl_cons, applySessionOp, hk, ih,
          RedisPubSubManager.unsubscribe, subsChannelsOf]
    | leaveError d s =>
      simp [List.foldl_cons, applySessionOp, ih, subsChannelsOf]

/-- Claim C5 (amended): a real SUBSCRIBE command is issued to the
substrate on every attach (one per join, in order — not only on the 0 to
1 transition, there is no ref-counting and no linger); and provided
every detach goes through the `WebSocketDisconnect` cleanup path, after
any sequence of lifecycle events a replica holds a substrate
subscription for `doc:<docId>` exactly when the registry holds at least
one local socket for that docId. A detach through the generic error path
never unsubscribes, breaking the equivalence (see the counterexample). -/
theorem subscribe_refcount_amended (ops : List SessionOp)
    (hops : ∀ op ∈ ops, op.isErrorLeave = false) :
    (∀ d, docChannel d ∈ (runSessionOps ops).2.subscribedChannels ↔
       (runSessionOps ops).1.socketsOf0 d ≠ []) ∧
    (runSessionOps ops).2.subscribeCmds = subsChannelsOf ops := by
  constructor
  · exact (sessionOps_inv ops ConnectionManager.empty RedisPubSubManager.empty
      hops
      (by
        intro d
        simp [RedisPubSubManager.empty, ConnectionManager.empty,
          ConnectionManager.socketsOf0, ConnectionManager.socketsOf])
      (by simp [RedisPubSubManager.empty])
      (by intro p hp; simp [ConnectionManager.empty] at hp)).1
  · have := subscribeCmds_foldl ops ConnectionManager.empty
      RedisPubSubManager.empty
    simpa [RedisPubSubManager.empty, runSessionOps] using this

end CollabDocs

namespace CollabDocs

/-- Claim C5 (counterexample): two joins to the same document issue two
real SUBSCRIBE commands (the spec allows only one, on the 0 to 1
transition), and after both sockets leave through the generic error path
the registry count is zero while the substrate subscription is still
held, with no unsubscribe ever issued — a permanent leak, not a linger. -/
theorem refcount_counterexample :
    (let r := runSessionOps
      [.join "d1" 1, .join "d1" 2, .leaveError "d1" 2, .leaveError "d1" 1]
     r.2.subscribeCmds = [docChannel "d1", docChannel "d1"] ∧
     r.1.socketsOf0 "d1" = [] ∧
     docChannel "d1" ∈ r.2.subscribedChannels ∧
     r.2.unsubscribeCmds = []) := by decide

/-- Witness for `subscribe_refcount_amended` on a concrete lifecycle
sequence with only disconnect-path detaches. -/
theorem subscribe_refcount_amended_witness :
    (∀ op ∈ opsW, op.isErrorLeave = false) ∧
    ((∀ d, docChannel d ∈ (runSessionOps opsW).2.subscribedChannels ↔
        (runSessionOps opsW).1.socketsOf0 d ≠ []) ∧
     (runSessionOps opsW).2.subscribeCmds = subsChannelsOf opsW) :=
  ⟨by decide, subscribe_refcount_amended opsW (by decide)⟩

/-- Witness for `broadcast_fanout_isolation` on a concrete registry
where socket 2 of document dA fails its send. -/
theorem broadcast_fanout_isolation_witness :
    (∀ p ∈ mW.active_connections, p.2.Nodup) ∧
    ((∀ c ∈ mW.socketsOf0 "dA", (fun c : Socket => !(c == 2)) c = true →
        (ConnectionManager.broadcast (fun c => !(c == 2)) mW "dA"
          []).2.count (c, ([] : Envelope)) = 1 ∧
        c ∈ (ConnectionManager.broadcast (fun c => !(c == 2)) mW "dA"
          []).1.socketsOf0 "dA") ∧
     (∀ c ∈ mW.socketsOf0 "dA", (fun c : Socket => !(c == 2)) c = false →
        (ConnectionManager.broadcast (fun c => !(c == 2)) mW "dA"
          []).2.count (c, ([] : Envelope)) = 0 ∧
        c ∉ (ConnectionManager.broadcast (fun c => !(c == 2)) mW "dA"
          []).1.socketsOf0 "dA") ∧
     (∀ d', d' ≠ "dA" →
        (ConnectionManager.broadcast (fun c => !(c == 2)) mW "dA"
          []).1.socketsOf d' = mW.socketsOf d')) :=
  ⟨by decide, broadcast_fanout_isolation mW "dA" [] (fun c => !(c == 2))
    (by decide)⟩

end CollabDocs
